import Mathlib

/-!
Shallow embedding of the user-registration and account-activation backend
(`src/app/server/src/user/UserService.js` and the components its spec
describes), together with theorems settling the spec's claims.

Conventions of the embedding:
* `bcrypt.hash` from the external `bcryptjs` library is threaded as a
  function parameter `hf : String → Nat → String` (the second argument is
  the cost factor); the source calls it as `bcrypt.hash(password, 10)`.
* `crypto.randomBytes(n)` is threaded as a parameter `rnd : List Nat`, a
  list of byte values; the library contract is that it returns exactly `n`
  bytes, each `< 256`.
* The store (the `User` table) is a list of `UserRecord`s; `User.create`
  appends.
* Email dispatch outcome is threaded as a parameter `emailOk : Bool`.
-/

namespace TddNode

/-- A row of the `User` table: the persisted user record. -/
structure UserRecord where
  username : String
  email : String
  password : String
  activationToken : String
  inactive : Bool
deriving Repr, DecidableEq

/-- The user store (the single `User` relation), as the list of its rows. -/
abbrev Store := List UserRecord

/-- A registration request body as it reaches `UserService.save` (the three
fields the service destructures, already validated, plus fields a client may
additionally supply: `inactive`, `activationToken`, `id`). -/
structure Body where
  username : String
  email : String
  password : String
  inactive : Option Bool
  activationToken : Option String
  id : Option Nat
deriving Repr, DecidableEq

/-- Lowercase hexadecimal digit for a nibble, as produced by Node's
`Buffer.toString('hex')`. -/
def hexDigit (n : Nat) : Char :=
  if n < 10 then Char.ofNat (48 + n) else Char.ofNat (87 + n)

/-- The two lowercase hex digits of one byte (high nibble first). -/
def hexByte (b : Nat) : List Char :=
  [hexDigit (b / 16 % 16), hexDigit (b % 16)]

/-- `buffer.toString('hex')`: hex-encode a byte list. -/
def hexEncode (bytes : List Nat) : String :=
  String.mk ((bytes.map hexByte).flatten)

/-- `generateToken` from `UserService.js`:
`crypto.randomBytes(length).toString('hex').substring(0, length)`.
The bytes returned by `crypto.randomBytes(length)` are the parameter
`randomBytes` (the library contract gives `randomBytes.length = length`). -/
def generateToken (length : Nat) (randomBytes : List Nat) : String :=
  String.mk (((randomBytes.map hexByte).flatten).take length)

/-- The object literal `user` built inside `UserService.save` and handed to
`User.create`: exactly the fields `username`, `email`, `password` (the
bcrypt hash) and `activationToken`. -/
structure CreateRecord where
  username : String
  email : String
  password : String
  activationToken : String
deriving Repr, DecidableEq

/-- The record `UserService.save` builds from the request body:
`{ username, email, password: hash, activationToken: generateToken(16) }`
where `hash = bcrypt.hash(password, 10)`. -/
def mkUser (hf : String → Nat → String) (rnd : List Nat) (b : Body) : CreateRecord :=
  { username := b.username
    email := b.email
    password := hf b.password 10
    activationToken := generateToken 16 rnd }

/-- Modelled from the spec: the Sequelize `User` model
(`src/user/User.js`, not under `src/`) — `inactive` is a boolean column
that defaults to `true` on creation ("`inactive`: boolean, defaults to
`true` on creation regardless of any client-supplied value for this
field"). `User.create` inserts a new row built from the given record, with
the model default applied to the absent `inactive` field. -/
def createUser (s : Store) (r : CreateRecord) : Store :=
  s ++ [{ username := r.username
          email := r.email
          password := r.password
          activationToken := r.activationToken
          inactive := true }]

/-- An invocation of `EmailService.sendAccountActivation(email, token)`. -/
structure EmailCall where
  recipient : String
  token : String
deriving Repr, DecidableEq

/-- Observable events of one execution of `UserService.save`. -/
inductive Event where
  | persist : CreateRecord → Event
  | send : EmailCall → Event
deriving Repr, DecidableEq

/-- Outcome of `UserService.save`: resolves, or rejects with the email
transport's error. -/
inductive SaveResult where
  | ok : SaveResult
  | emailFailure : SaveResult
deriving Repr, DecidableEq

/-- `UserService.save` from `UserService.js`, as a state transformer:

```
const { username, email, password } = body;
const hash = await bcrypt.hash(password, 10);
const user = { username, email, password: hash, activationToken: generateToken(16) };
await User.create(user);
await EmailService.sendAccountActivation(email, user.activationToken);
```

Returns the store after the call, the trace of persist/send events, and the
outcome. `emailOk` is whether the email transport accepts the message; the
source has no `try`/`catch` and no transaction, so the row created by
`User.create` is in the returned store in both outcomes. -/
def save (hf : String → Nat → String) (rnd : List Nat) (emailOk : Bool)
    (b : Body) (s : Store) : Store × List Event × SaveResult :=
  let user := mkUser hf rnd b
  let s1 := createUser s user
  (s1,
   [Event.persist user, Event.send { recipient := b.email, token := user.activationToken }],
   if emailOk then SaveResult.ok else SaveResult.emailFailure)

/-- `UserService.findByEmail`: `User.findOne({ where: { email } })`. -/
def findByEmail (s : Store) (email : String) : Option UserRecord :=
  s.find? (fun u => u.email == email)

/-- Number of rows in the store whose `email` equals `e`. -/
def countByEmail (s : Store) (e : String) : Nat :=
  s.countP (fun u => u.email == e)

/-! ### Activation handler (modelled from the spec) -/

/-- An HTTP response of the activation endpoint: status code and the
message of its body (English catalog, from the repository's test strings). -/
structure ActivationResponse where
  status : Nat
  message : String
deriving Repr, DecidableEq

/-- The generic invalid-token message (English catalog). -/
def invalidTokenMessage : String :=
  "This account is either active or the token is invalid"

/-- The activation success message (English catalog). -/
def activatedMessage : String :=
  "Account is activated"

/-- Modelled from the spec: the successful transition of the activation
handler — "If found: clear token, set inactive=false, persist". -/
def setActive (u : UserRecord) : UserRecord :=
  { u with inactive := false, activationToken := "" }

/-- Whether some row's `activationToken` equals the presented token. -/
def tokenExists (s : Store) (t : String) : Bool :=
  s.any (fun u => u.activationToken == t)

/-- Clear the token of and activate the first row whose `activationToken`
equals `t` (the row a lookup-by-token finds), leaving all other rows
unchanged. -/
def activateUser (s : Store) (t : String) : Store :=
  match s with
  | [] => []
  | u :: rest =>
    if u.activationToken == t then setActive u :: rest
    else u :: activateUser rest t

/-- Modelled from the spec: the activation handler
(`POST /api/1.0/users/token/:token`; its source is not under `src/`) —
"Lookup user by token. If found: clear token, set inactive=false, persist,
respond success. If not found: no state change; respond with a generic
'account is either already active or the token is invalid' error"
(HTTP 400 per the spec's external-interface section, 200 on success).
Returns the store after the request and the response. -/
def activate (s : Store) (t : String) : Store × ActivationResponse :=
  if tokenExists s t then
    (activateUser s t, { status := 200, message := activatedMessage })
  else
    (s, { status := 400, message := invalidTokenMessage })

/-! ### Validation layer (modelled from the spec) -/

/-- A creation payload as the validation layer sees it: each field may be
absent/null. -/
structure RawBody where
  username : Option String
  email : Option String
  password : Option String
deriving Repr, DecidableEq

/-- Modelled from the spec: "syntactically valid address" — a local part,
one `@`, and a domain with a dot separating non-empty labels (accepts
`user1@example.com`; rejects the spec's invalid examples `mail.com`,
`user.mail.com`, `user@mail`). -/
def isValidEmail (e : String) : Bool :=
  match e.split (fun c => c == '@') with
  | [l, d] =>
    let labels := d.split (fun c => c == '.')
    !l.isEmpty && labels.length ≥ 2 && labels.all (fun p => !p.isEmpty)
  | _ => false

def hasLower (p : String) : Bool := p.toList.any Char.isLower

def hasUpper (p : String) : Bool := p.toList.any Char.isUpper

def hasDigit (p : String) : Bool := p.toList.any Char.isDigit

/-- Modelled from the spec: the `username` field rules in declared order —
non-null (`username_null`), then length in [4,32] (`username_size`);
returns the message of the first violated rule. English catalog messages
from the repository's tests. -/
def checkUsername (b : RawBody) : Option String :=
  match b.username with
  | none => some "Username cannot be null"
  | some u =>
    if u.length < 4 || 32 < u.length then
      some "Must have minimum 4 and max 32 characters"
    else none

/-- Modelled from the spec: the `email` field rules in declared order —
non-null (`email_null`), syntactically valid (`email_invalid`), then not
already registered (`email_inuse`, a store lookup evaluated after the
syntactic checks). -/
def checkEmail (s : Store) (b : RawBody) : Option String :=
  match b.email with
  | none => some "Email cannot be null"
  | some e =>
    if !isValidEmail e then some "Email is invalid"
    else if (findByEmail s e).isSome then some "Email is in use"
    else none

/-- Modelled from the spec: the `password` field rules in declared order —
non-null (`password_null`), length ≥ 6 (`password_size`), then ≥1
lowercase, ≥1 uppercase, ≥1 digit (`password_pattern`). -/
def checkPassword (b : RawBody) : Option String :=
  match b.password with
  | none => some "Password cannot be null"
  | some p =>
    if p.length < 6 then some "Password must be at least 6 characters"
    else if !(hasLower p && hasUpper p && hasDigit p) then
      some "Password must have at least 1 uppercase, 1 lowercase letter and 1 number"
    else none

/-- Modelled from the spec: the validation layer — "All applicable field
violations are collected (not short-circuited) and returned together,
keyed by field name, in the order the rules are declared (username, then
email, then password)". The result is the `validationErrors` mapping as an
order-preserving association list. -/
def validate (s : Store) (b : RawBody) : List (String × String) :=
  (match checkUsername b with | some m => [("username", m)] | none => []) ++
  (match checkEmail s b with | some m => [("email", m)] | none => []) ++
  (match checkPassword b with | some m => [("password", m)] | none => [])

/-! ### Reachable stores and the user-state invariant -/

/-- The two-state invariant on one row: either pending (`inactive` with a
non-empty token) or active (not `inactive`, token cleared). -/
def userInvariant (u : UserRecord) : Bool :=
  (u.inactive && !(u.activationToken == "")) ||
  (!u.inactive && u.activationToken == "")

/-- Stores reachable by the system: from the empty store, by registrations
(`UserService.save`, with `crypto.randomBytes(16)` returning 16 bytes) and
by activation requests. -/
inductive Reachable : Store → Prop where
  | init : Reachable []
  | register (s : Store) (hf : String → Nat → String) (rnd : List Nat)
      (emailOk : Bool) (b : Body) (h : Reachable s) (hrnd : rnd.length = 16) :
      Reachable (save hf rnd emailOk b s).1
  | activation (s : Store) (t : String) (h : Reachable s) :
      Reachable (activate s t).1

/-! ### Helper definitions and lemmas -/

/-- The row that `User.create` inserts for a registration: the
`CreateRecord` built by `save`, with the model default `inactive := true`. -/
def storedUser (hf : String → Nat → String) (rnd : List Nat) (b : Body) : UserRecord :=
  { username := b.username
    email := b.email
    password := hf b.password 10
    activationToken := generateToken 16 rnd
    inactive := true }

/-- Whether an event is an invocation of the email dispatcher. -/
def isSend : Event → Bool
  | Event.send _ => true
  | Event.persist _ => false

/-- A lowercase hexadecimal character: a decimal digit or `a`–`f`. -/
def isLowerHexChar (c : Char) : Bool :=
  c.isDigit || ('a' ≤ c && c ≤ 'f')

/-- A concrete stand-in for `bcrypt.hash` used to instantiate theorems on
concrete inputs (prefixes the bcrypt header for cost 10). -/
def hfW : String → Nat → String :=
  fun p _ => String.append "$2a$10$N9qo8uLOickgx2ZMRZoMye." p

/-- A concrete outcome of `crypto.randomBytes(16)`: sixteen bytes `0xab`. -/
def rndW : List Nat := List.replicate 16 171

/-- The concrete valid registration body used throughout the repository's
tests: `{username: 'user1', email: 'user1@example.com', password: 'Pass1234'}`. -/
def bodyW : Body :=
  { username := "user1"
    email := "user1@example.com"
    password := "Pass1234"
    inactive := none
    activationToken := none
    id := none }

/-- A store with two pending users that hold the same activation token
(reachable by two registrations for which `crypto.randomBytes` returned
the same bytes). -/
def dupStore : Store :=
  [{ username := "u1", email := "a@x.com", password := "h1",
     activationToken := "tk", inactive := true },
   { username := "u2", email := "b@x.com", password := "h2",
     activationToken := "tk", inactive := true }]

/-- A store with a single pending user holding token `tk`. -/
def oneTokenStore : Store :=
  [{ username := "u1", email := "a@x.com", password := "h1",
     activationToken := "tk", inactive := true }]

lemma save_fst_eq (hf : String → Nat → String) (rnd : List Nat) (emailOk : Bool)
    (b : Body) (s : Store) :
    (save hf rnd emailOk b s).1 = s ++ [storedUser hf rnd b] := rfl

lemma hexDigit_lowerHex : ∀ n < 16, isLowerHexChar (hexDigit n) = true := by decide

lemma hexByte_lowerHex (b : Nat) : ∀ c ∈ hexByte b, isLowerHexChar c = true := by
  intro c hc
  simp only [hexByte, List.mem_cons, List.mem_singleton, List.not_mem_nil, or_false] at hc
  rcases hc with h | h <;> subst h <;>
    exact hexDigit_lowerHex _ (Nat.mod_lt _ (by decide))

lemma length_flatten_hexByte (l : List Nat) :
    ((l.map hexByte).flatten).length = 2 * l.length := by
  induction l with
  | nil => simp
  | cons a l ih =>
    simp only [List.map_cons, List.flatten_cons, List.length_append, ih, hexByte,
      List.length_cons, List.length_nil]
    omega

lemma generateToken_length (n : Nat) (rnd : List Nat) :
    (generateToken n rnd).length = min n (2 * rnd.length) := by
  show (((rnd.map hexByte).flatten).take n).length = _
  rw [List.length_take, length_flatten_hexByte]

lemma generateToken_length_16 (rnd : List Nat) (h : rnd.length = 16) :
    (generateToken 16 rnd).length = 16 := by
  rw [generateToken_length, h]
  decide

lemma generateToken_ne_empty (rnd : List Nat) (h : rnd.length = 16) :
    generateToken 16 rnd ≠ "" := by
  intro heq
  have := generateToken_length_16 rnd h
  rw [heq] at this
  simp [String.length] at this

lemma generateToken_chars_lowerHex (n : Nat) (rnd : List Nat) :
    ∀ c ∈ (generateToken n rnd).toList, isLowerHexChar c = true := by
  intro c hc
  have hc' : c ∈ (rnd.map hexByte).flatten := List.take_subset n _ hc
  obtain ⟨l, hl, hcl⟩ := List.mem_flatten.mp hc'
  obtain ⟨b, _, hb⟩ := List.mem_map.mp hl
  exact hexByte_lowerHex b c (hb ▸ hcl)

lemma mem_activateUser (s : Store) (t : String) :
    ∀ u ∈ activateUser s t, u ∈ s ∨ ∃ v ∈ s, u = setActive v := by
  induction s with
  | nil => simp [activateUser]
  | cons a s ih =>
    intro u hu
    rw [activateUser] at hu
    by_cases ha : a.activationToken == t
    · rw [if_pos ha] at hu
      rcases List.mem_cons.mp hu with h | h
      · exact Or.inr ⟨a, List.mem_cons_self a s, h⟩
      · exact Or.inl (List.mem_cons_of_mem a h)
    · rw [if_neg ha] at hu
      rcases List.mem_cons.mp hu with h | h
      · exact Or.inl (h ▸ List.mem_cons_self a s)
      · rcases ih u h with h' | ⟨v, hv, hv'⟩
        · exact Or.inl (List.mem_cons_of_mem a h')
        · exact Or.inr ⟨v, List.mem_cons_of_mem a hv, hv'⟩

lemma userInvariant_setActive (v : UserRecord) :
    userInvariant (setActive v) = true := by
  simp [userInvariant, setActive]

lemma userInvariant_storedUser (hf : String → Nat → String) (rnd : List Nat)
    (b : Body) (h : rnd.length = 16) :
    userInvariant (storedUser hf rnd b) = true := by
  simp only [userInvariant, storedUser, Bool.true_and, Bool.not_true, Bool.false_and,
    Bool.or_false]
  simp [generateToken_ne_empty rnd h]

/-! ### Claim theorems -/

/-- C2: every user record of every reachable store is either inactive with
a non-empty activation token or active with an empty token; the invariant
holds initially and is preserved by registration and by activation. -/
theorem reachable_user_invariant (s : Store) (h : Reachable s) :
    ∀ u ∈ s, userInvariant u = true := by
  induction h with
  | init => simp
  | register s hf rnd emailOk b _ hrnd ih =>
    intro u hu
    rw [save_fst_eq] at hu
    rcases List.mem_append.mp hu with h1 | h2
    · exact ih u h1
    · rw [List.mem_singleton.mp h2]
      exact userInvariant_storedUser hf rnd b hrnd
  | activation s t _ ih =>
    intro u hu
    rw [activate] at hu
    by_cases hex : tokenExists s t = true
    · rw [if_pos hex] at hu
      rcases mem_activateUser s t u hu with h1 | ⟨v, _, hv⟩
      · exact ih u h1
      · exact hv ▸ userInvariant_setActive v
    · rw [if_neg hex] at hu
      exact ih u hu

/-- Witness for C2 at the store reached by one registration. -/
theorem reachable_user_invariant_witness :
    ((save hfW rndW true bodyW []).1).all (fun u => userInvariant u) = true := by
  have h := reachable_user_invariant _
    (Reachable.register [] hfW rndW true bodyW Reachable.init (by decide))
  exact List.all_eq_true.mpr h

/-- C4: every registration's activation token is produced from 16 bytes of
secure randomness (the `crypto.randomBytes(16)` result `rnd`), hex-encoded
and truncated to exactly 16 characters, so the persisted token is a
non-empty string of exactly 16 lowercase hexadecimal characters. -/
theorem activationToken_is_hex16 (hf : String → Nat → String) (rnd : List Nat)
    (b : Body) (h : rnd.length = 16) :
    (mkUser hf rnd b).activationToken = generateToken 16 rnd ∧
    generateToken 16 rnd = String.mk ((hexEncode rnd).toList.take 16) ∧
    (generateToken 16 rnd).length = 16 ∧
    generateToken 16 rnd ≠ "" ∧
    ∀ c ∈ (generateToken 16 rnd).toList, isLowerHexChar c = true :=
  ⟨rfl, rfl, generateToken_length_16 rnd h, generateToken_ne_empty rnd h,
   generateToken_chars_lowerHex 16 rnd⟩

/-- Witness for C4 at `crypto.randomBytes(16) = rndW`. -/
theorem activationToken_is_hex16_witness :
    rndW.length = 16 ∧
    ((mkUser hfW rndW bodyW).activationToken = generateToken 16 rndW ∧
     generateToken 16 rndW = String.mk ((hexEncode rndW).toList.take 16) ∧
     (generateToken 16 rndW).length = 16 ∧
     generateToken 16 rndW ≠ "" ∧
     ∀ c ∈ (generateToken 16 rndW).toList, isLowerHexChar c = true) :=
  ⟨by decide, activationToken_is_hex16 hfW rndW bodyW (by decide)⟩

/-- C3: the row persisted by `UserService.save` always has
`inactive = true`, and a client-supplied `inactive` field in the body is
discarded: `save` is invariant under changing it. -/
theorem save_forces_inactive (hf : String → Nat → String) (rnd : List Nat)
    (emailOk : Bool) (b : Body) (s : Store) :
    (save hf rnd emailOk b s).1 = s ++ [storedUser hf rnd b] ∧
    (storedUser hf rnd b).inactive = true ∧
    (∀ v : Option Bool,
      save hf rnd emailOk { b with inactive := v } s = save hf rnd emailOk b s) :=
  ⟨rfl, rfl, fun _ => rfl⟩

/-- C5: the password stored on the persisted row is `bcrypt.hash(p, 10)`
(hash `hf` at cost factor 10), and — given bcrypt's one-way property that
the hash differs from its input — it is never the plaintext itself. -/
theorem save_stores_bcrypt_hash (hf : String → Nat → String) (rnd : List Nat)
    (emailOk : Bool) (b : Body) (s : Store)
    (h : hf b.password 10 ≠ b.password) :
    (save hf rnd emailOk b s).1 = s ++ [storedUser hf rnd b] ∧
    (storedUser hf rnd b).password = hf b.password 10 ∧
    (storedUser hf rnd b).password ≠ b.password :=
  ⟨rfl, rfl, h⟩

/-- Witness for C5 at the concrete test body and hash function. -/
theorem save_stores_bcrypt_hash_witness :
    hfW bodyW.password 10 ≠ bodyW.password ∧
    ((save hfW rndW true bodyW []).1 = [] ++ [storedUser hfW rndW bodyW] ∧
     (storedUser hfW rndW bodyW).password = hfW bodyW.password 10 ∧
     (storedUser hfW rndW bodyW).password ≠ bodyW.password) :=
  ⟨by decide, save_stores_bcrypt_hash hfW rndW true bodyW [] (by decide)⟩

/-- C6: in every execution of `UserService.save`, the trace is the persist
of the built record followed by exactly one invocation of the email
dispatcher, whose recipient is the body's email (the persisted email) and
whose token is the persisted `activationToken`. -/
theorem save_persists_then_sends (hf : String → Nat → String) (rnd : List Nat)
    (emailOk : Bool) (b : Body) (s : Store) :
    (save hf rnd emailOk b s).2.1 =
      [Event.persist (mkUser hf rnd b),
       Event.send { recipient := b.email, token := (mkUser hf rnd b).activationToken }] ∧
    (mkUser hf rnd b).email = b.email ∧
    (save hf rnd emailOk b s).2.1.countP isSend = 1 ∧
    (save hf rnd emailOk b s).2.1.countP (fun e => !(isSend e)) = 1 :=
  ⟨rfl, rfl, rfl, rfl⟩

/-- C10: the record handed to `User.create` is built from exactly the four
fields `username`, `email`, `password` (the hash) and `activationToken`
(the freshly generated token); any client-supplied `activationToken`, `id`
or `inactive` value never reaches the store. -/
theorem save_passes_exact_fields (hf : String → Nat → String) (rnd : List Nat)
    (emailOk : Bool) (b : Body) (s : Store) :
    mkUser hf rnd b =
      CreateRecord.mk b.username b.email (hf b.password 10) (generateToken 16 rnd) ∧
    (save hf rnd emailOk b s).2.1.head? = some (Event.persist (mkUser hf rnd b)) ∧
    (mkUser hf rnd b).activationToken = generateToken 16 rnd ∧
    (∀ (v : Option String) (w : Option Nat) (x : Option Bool),
      mkUser hf rnd { b with activationToken := v, id := w, inactive := x } =
        mkUser hf rnd b) :=
  ⟨rfl, rfl, rfl, fun _ _ _ => rfl⟩

/-- C1: contrary to the spec's rollback contract (and to the repository's
own test "does not save user to database if activation email fails"),
`UserService.save` has no `try`/`catch` and no transaction: when the email
transport fails after `User.create`, the outcome is the email failure but
the store still contains one user with the registered email. -/
theorem save_email_failure_keeps_user :
    (save hfW rndW false bodyW []).2.2 = SaveResult.emailFailure ∧
    countByEmail (save hfW rndW false bodyW []).1 "user1@example.com" = 1 := by
  decide

/-- C7: all applicable field violations are collected together, keyed by
field name, with keys in the declared rule order username, email,
password; in particular a payload violating both the username and the
email rules (and not the password rules) yields `validationErrors` keys
exactly `["username", "email"]`. -/
theorem validate_collects_in_order (s : Store) (b : RawBody)
    (hu : (checkUsername b).isSome = true)
    (he : (checkEmail s b).isSome = true)
    (hp : checkPassword b = none) :
    (validate s b).map Prod.fst = ["username", "email"] ∧
    ∀ (s2 : Store) (b2 : RawBody), (validate s2 b2).map Prod.fst =
      (if (checkUsername b2).isSome then ["username"] else []) ++
      (if (checkEmail s2 b2).isSome then ["email"] else []) ++
      (if (checkPassword b2).isSome then ["password"] else []) := by
  constructor
  · obtain ⟨mu, hmu⟩ := Option.isSome_iff_exists.mp hu
    obtain ⟨me, hme⟩ := Option.isSome_iff_exists.mp he
    simp [validate, hmu, hme, hp]
  · intro s2 b2
    cases hcu : checkUsername b2 <;> cases hce : checkEmail s2 b2 <;>
      cases hcp : checkPassword b2 <;> simp [validate, hcu, hce, hcp]

/-- Witness for C7 at the repository's test payload with both `username`
and `email` null and a valid password. -/
theorem validate_collects_in_order_witness :
    ((checkUsername { username := none, email := none, password := some "Pass1234" }).isSome = true ∧
     (checkEmail [] { username := none, email := none, password := some "Pass1234" }).isSome = true ∧
     checkPassword { username := none, email := none, password := some "Pass1234" } = none) ∧
    (validate [] { username := none, email := none, password := some "Pass1234" }).map Prod.fst =
      ["username", "email"] :=
  ⟨⟨by decide, by decide, by decide⟩,
   (validate_collects_in_order [] _ (by decide) (by decide) (by decide)).1⟩

/-- C9: activating with a token matching no user leaves the store
unchanged and responds 400 with the single generic invalid-token message;
the response is the same whatever store and token produced the miss, so it
does not distinguish a never-issued token from a consumed one. -/
theorem activate_unknown_token_no_change (s : Store) (t : String)
    (h : tokenExists s t = false) :
    activate s t = (s, { status := 400, message := invalidTokenMessage }) ∧
    ∀ (s2 : Store) (t2 : String), tokenExists s2 t2 = false →
      (activate s2 t2).2 = (activate s t).2 := by
  constructor
  · rw [activate, if_neg (by rw [h]; exact Bool.false_ne_true)]
  · intro s2 t2 h2
    rw [activate, if_neg (by rw [h2]; exact Bool.false_ne_true),
        activate, if_neg (by rw [h]; exact Bool.false_ne_true)]

/-- Witness for C9 at an empty store and the tests' wrong token. -/
theorem activate_unknown_token_no_change_witness :
    tokenExists [] "this-token-does-not-exist" = false ∧
    activate [] "this-token-does-not-exist" =
      ([], { status := 400, message := invalidTokenMessage }) :=
  ⟨by decide,
   (activate_unknown_token_no_change [] "this-token-does-not-exist" (by decide)).1⟩

lemma activateUser_decomp (s : Store) (t : String) (h : tokenExists s t = true) :
    ∃ l u r, s = l ++ u :: r ∧ u.activationToken = t ∧
      activateUser s t = l ++ setActive u :: r := by
  induction s with
  | nil => simp [tokenExists] at h
  | cons a s ih =>
    by_cases ha : (a.activationToken == t) = true
    · refine ⟨[], a, s, rfl, by simpa using ha, ?_⟩
      rw [activateUser, if_pos ha]
      rfl
    · have ha' : (a.activationToken == t) = false := Bool.eq_false_iff.mpr ha
      have h' : tokenExists s t = true := by
        rw [tokenExists, List.any_cons, ha'] at h
        simpa [tokenExists] using h
      obtain ⟨l, u, r, hs, hu, hact⟩ := ih h'
      refine ⟨a :: l, u, r, by rw [hs]; rfl, hu, ?_⟩
      rw [activateUser, if_neg ha, hact]
      rfl

lemma any_eq_false_of_countP_eq_zero (l : List UserRecord)
    (p : UserRecord → Bool) (h : l.countP p = 0) : l.any p = false := by
  cases hl : l.any p with
  | false => rfl
  | true =>
    obtain ⟨a, ha, hpa⟩ := List.any_eq_true.mp hl
    exact absurd hpa (List.countP_eq_zero.mp h a ha)

/-- C8 counterexample: in a store where two users hold the same token
`tk`, the first activation succeeds, but a subsequent activation with the
same token succeeds again (status 200, success message) and changes state
— it does not return the generic invalid-token error with no change, so
the claim fails as universally stated. -/
theorem activate_reused_token_counterexample :
    tokenExists dupStore "tk" = true ∧
    (activate (activate dupStore "tk").1 "tk").2 =
      { status := 200, message := activatedMessage } ∧
    (activate (activate dupStore "tk").1 "tk").1 ≠ (activate dupStore "tk").1 := by
  decide

/-- C8 (amended): for every store in which exactly one user's
`activationToken` equals the presented non-empty token, activation clears
that user's token, sets `inactive` to false, persists the change and
responds with success; a subsequent activation presenting the same
consumed token returns the generic invalid-token error and changes no
state. -/
theorem activate_consumes_unique_token (s : Store) (t : String)
    (hone : s.countP (fun u => u.activationToken == t) = 1) (ht : t ≠ "") :
    (activate s t).2 = { status := 200, message := activatedMessage } ∧
    (∃ l u r, s = l ++ u :: r ∧ u.activationToken = t ∧
      (activate s t).1 = l ++ setActive u :: r ∧
      (setActive u).inactive = false ∧ (setActive u).activationToken = "") ∧
    activate (activate s t).1 t =
      ((activate s t).1, { status := 400, message := invalidTokenMessage }) := by
  have hex : tokenExists s t = true := by
    rw [tokenExists, List.any_eq_true]
    exact List.countP_pos_iff.mp (by omega)
  obtain ⟨l, u, r, hs, hu, hact⟩ := activateUser_decomp s t hex
  have hst : (activate s t).1 = l ++ setActive u :: r := by
    rw [activate, if_pos hex]
    exact hact
  have hpu : (u.activationToken == t) = true := beq_iff_eq.mpr hu
  have hclr : l.countP (fun v => v.activationToken == t) = 0 ∧
      r.countP (fun v => v.activationToken == t) = 0 := by
    rw [hs, List.countP_append, List.countP_cons, hpu] at hone
    simp at hone
    omega
  have hp2 : ((setActive u).activationToken == t) = false := by
    have : (setActive u).activationToken = "" := rfl
    rw [this]
    exact beq_eq_false_iff_ne.mpr (Ne.symm ht)
  have hex2 : tokenExists (l ++ setActive u :: r) t = false := by
    rw [tokenExists, List.any_append, List.any_cons, hp2,
      any_eq_false_of_countP_eq_zero l _ hclr.1,
      any_eq_false_of_countP_eq_zero r _ hclr.2]
    rfl
  refine ⟨by rw [activate, if_pos hex], ⟨l, u, r, hs, hu, hst, rfl, rfl⟩, ?_⟩
  rw [hst, activate, if_neg (by rw [hex2]; exact Bool.false_ne_true)]

/-- Witness for the amended C8 at a store with one pending user. -/
theorem activate_consumes_unique_token_witness :
    (oneTokenStore.countP (fun u => u.activationToken == "tk") = 1 ∧ "tk" ≠ "") ∧
    ((activate oneTokenStore "tk").2 = { status := 200, message := activatedMessage } ∧
     (∃ l u r, oneTokenStore = l ++ u :: r ∧ u.activationToken = "tk" ∧
       (activate oneTokenStore "tk").1 = l ++ setActive u :: r ∧
       (setActive u).inactive = false ∧ (setActive u).activationToken = "") ∧
     activate (activate oneTokenStore "tk").1 "tk" =
       ((activate oneTokenStore "tk").1, { status := 400, message := invalidTokenMessage })) :=
  ⟨⟨by decide, by decide⟩,
   activate_consumes_unique_token oneTokenStore "tk" (by decide) (by decide)⟩

end TddNode
